import Mathlib

/-
Shallow embedding of the terraform-provider-headscale reconcilers
(provider package: PreAuthKeyResource, ApiKeyResource, UserResource,
NodeTagsResource, NodeRoutesResource, NodesDataSource, and the TLS
material resolution inside HeadscaleProvider.Configure).

Modelling conventions:
  - Go time instants and durations are Int nanosecond ticks.
    t1.After(t2) is the strict comparison t1 > t2.  The RFC3339
    formatting of displayed timestamps is not modelled; the model keeps
    the tick value itself.
  - Go strings that are only stored or compared are Lean String;
    strings that the code takes apart character by character
    (duration strings, the api-key secret, file paths) are List Char.
  - A nil protobuf slice or message is Option.none; a terraform null
    value is Option.none on the model field.
  - Each RPC outcome is an input of the embedded operation:
    Except String r stands for (response r, err) of the Go call.
  - Diagnostics are the list of error summaries added via AddError;
    terraform state after the operation is Option model, none meaning
    the resource was removed (or, for create, never written).
-/

/-- Outcome of a Read-style operation: the error diagnostics that were
added, and the final terraform state (none when the resource was
removed from state). -/
structure ReadResult (α : Type) where
  diags : List String
  finalState : Option α
deriving Repr, DecidableEq

/- ---------------------------------------------------------------
   Go time.ParseDuration, embedded over List Char.
   Grammar (from Go's time package): optional sign, then one or more
   groups of digits [ '.' digits ] unit, where unit is one of
   ns, us, µs, μs, ms, s, m, h.  The special form "0" (after the sign)
   is zero.  The uint64 overflow error paths of Go's parser are
   modelled: the digit-accumulator bounds of leadingInt, the
   v > 2^63/unit check before v *= unit, the post-fraction v > 2^63
   check, the running-total d > 2^63 check (with the uint64 wrap of
   d += v), and the final positive-result bound of 2^63 - 1.  Go
   computes the fractional contribution with float64 arithmetic; the
   model computes it exactly as f * unit / scale in integers.
   --------------------------------------------------------------- -/

/-- The uint64 constant 1 <<< 63 that bounds Go's overflow checks. -/
def two63 : Nat := 9223372036854775808

/-- Go leadingInt: consumes the leading digits into a uint64
accumulator, erring (none) when the accumulator would pass 2^63. -/
def leadingInt (x : Nat) : List Char → Option (Nat × List Char)
  | [] => some (x, [])
  | c :: rest =>
    if ¬ c.isDigit then some (x, c :: rest)
    else if x > two63 / 10 then none
    else
      let y := x * 10 + (c.toNat - 48)
      if y > two63 then none
      else leadingInt y rest

/-- Go leadingFraction: consumes the leading digits as a fraction
numerator together with its power-of-ten scale, silently dropping
further digits once the accumulator would overflow. -/
def leadingFraction (x scale : Nat) (overflow : Bool) :
    List Char → Nat × Nat × List Char
  | [] => (x, scale, [])
  | c :: rest =>
    if ¬ c.isDigit then (x, scale, c :: rest)
    else if overflow then leadingFraction x scale true rest
    else if x > (two63 - 1) / 10 then leadingFraction x scale true rest
    else
      let y := x * 10 + (c.toNat - 48)
      if y > two63 then leadingFraction x scale true rest
      else leadingFraction y (scale * 10) false rest

/-- The optional fraction step of the loop: on a leading dot, consume
the fraction; yields the numerator, its scale, the remainder, and
whether any fraction digit was consumed. -/
def parseFrac : List Char → Nat × Nat × List Char × Bool
  | '.' :: r =>
    let q := leadingFraction 0 1 false r
    (q.1, q.2.1, q.2.2, decide (q.2.2.length ≠ r.length))
  | s => (0, 1, s, false)

/-- Consume a unit token: the leading characters that are neither
digits nor a decimal point. -/
def takeUnit : List Char → (List Char × List Char)
  | [] => ([], [])
  | c :: rest =>
    if c.isDigit ∨ c = '.' then ([], c :: rest)
    else
      let r := takeUnit rest
      (c :: r.1, r.2)

/-- Nanoseconds per unit token, per Go's unitMap (both micro signs). -/
def unitNs (u : List Char) : Option Nat :=
  if u = ['n', 's'] then some 1
  else if u = ['u', 's'] then some 1000
  else if u = ['µ', 's'] then some 1000
  else if u = ['μ', 's'] then some 1000
  else if u = ['m', 's'] then some 1000000
  else if u = ['s'] then some 1000000000
  else if u = ['m'] then some 60000000000
  else if u = ['h'] then some 3600000000000
  else none

/-- The fractional contribution with its overflow check: v plus
f * unit / scale, erring when the sum passes 2^63 (Go computes the
product in float64; the model computes it exactly). -/
def addFrac (v f scale unit : Nat) : Option Nat :=
  if f > 0 then
    let v2 := v + f * unit / scale
    if v2 > two63 then none else some v2
  else some v

/-- One pass of Go ParseDuration's main loop over the remaining input,
d being the uint64 running total in nanoseconds; the fuel argument is
the length of the remaining input (each round consumes at least one
character, so this suffices). -/
def parseDurParts : Nat → Nat → List Char → Except String Nat
  | _, d, [] => .ok d
  | 0, _, _ :: _ => .error "time: invalid duration"
  | fuel + 1, d, c :: cs =>
    if ¬ (c.isDigit ∨ c = '.') then .error "time: invalid duration"
    else
      match leadingInt 0 (c :: cs) with
      | none => .error "time: invalid duration"
      | some q1 =>
        let v := q1.1
        let rest1 := q1.2
        let pre := decide (rest1.length ≠ (c :: cs).length)
        let q2 := parseFrac rest1
        let f := q2.1
        let scale := q2.2.1
        let rest2 := q2.2.2.1
        let post := q2.2.2.2
        if pre = false ∧ post = false then .error "time: invalid duration"
        else
          let p3 := takeUnit rest2
          if p3.1 = [] then .error "time: missing unit in duration"
          else
            match unitNs p3.1 with
            | none => .error "time: unknown unit in duration"
            | some unit =>
              if v > two63 / unit then .error "time: invalid duration"
              else
                match addFrac (v * unit) f scale unit with
                | none => .error "time: invalid duration"
                | some v2 =>
                  let d2 := (d + v2) % (two63 * 2)
                  if d2 > two63 then .error "time: invalid duration"
                  else parseDurParts fuel d2 p3.2

/-- Go time.ParseDuration. -/
def parseDuration (s : List Char) : Except String Int :=
  let signed := match s with
    | '-' :: rest => (true, rest)
    | '+' :: rest => (false, rest)
    | _ => (false, s)
  let neg := signed.1
  let s1 := signed.2
  if s1 = ['0'] then .ok 0
  else if s1 = [] then .error "time: invalid duration"
  else
    match parseDurParts s1.length 0 s1 with
    | .error e => .error e
    | .ok d =>
      if neg then .ok (-(Int.ofNat d))
      else if d > two63 - 1 then .error "time: invalid duration"
      else .ok (Int.ofNat d)

/- ---------------------------------------------------------------
   Remote entities (protobuf messages of the headscale v1 API) and the
   terraform resource models, as the provider declares them.
   --------------------------------------------------------------- -/

/-- Remote v1.PreAuthKey message. -/
structure PreAuthKey where
  id : Nat
  key : String
  reusable : Bool
  ephemeral : Bool
  aclTags : List String
  expiration : Int
  createdAt : Int
deriving Repr, DecidableEq

/-- PreAuthKeyResourceModel of the provider. -/
structure PreAuthKeyResourceModel where
  id : Nat
  userId : Nat
  reusable : Bool
  ephemeral : Bool
  ttl : Option (List Char)
  aclTags : List String
  expired : Bool
  createdAt : Int
  expiration : Int
  key : String
deriving Repr, DecidableEq

/-- Remote v1.ApiKey message; pfx is its Prefix field. -/
structure ApiKey where
  pfx : List Char
  expiration : Int
  createdAt : Int
deriving Repr, DecidableEq

/-- ApiKeyResourceModel of the provider. -/
structure ApiKeyResourceModel where
  id : List Char
  ttl : List Char
  expired : Bool
  createdAt : Int
  expiration : Int
  key : List Char
deriving Repr, DecidableEq

/-- Remote v1.User message. -/
structure User where
  id : Nat
  name : String
  email : String
  displayName : String
  createdAt : Int
deriving Repr, DecidableEq

/-- UserResourceModel of the provider (email and display name are null
when absent). -/
structure UserResourceModel where
  id : Nat
  name : String
  email : Option String
  displayName : Option String
  createdAt : Int
deriving Repr, DecidableEq

/-- Remote v1.Node message; nil repeated fields are none. -/
structure Node where
  id : Nat
  name : String
  userId : Nat
  forcedTags : Option (List String)
  approvedRoutes : Option (List String)
deriving Repr, DecidableEq

/-- NodeTagsResourceModel of the provider; a null tags set is none. -/
structure NodeTagsResourceModel where
  id : Nat
  nodeId : Nat
  tags : Option (List String)
deriving Repr, DecidableEq

/-- NodeRoutesResourceModel of the provider. -/
structure NodeRoutesResourceModel where
  id : Nat
  nodeId : Nat
  routes : Option (List String)
deriving Repr, DecidableEq

/-- NodeModel of the nodes data source. -/
structure NodeModel where
  id : Nat
  name : String
  userId : Nat
deriving Repr, DecidableEq

/- ---------------------------------------------------------------
   PreAuthKeyResource
   --------------------------------------------------------------- -/

/-- PreAuthKeyResource.readComputedFields: copies the remote key's
fields into the model; expired is computed as now strictly after the
expiration instant (Go time.Now().After). -/
def PreAuthKeyResource.readComputedFields (now : Int) (key : PreAuthKey)
    (data : PreAuthKeyResourceModel) : PreAuthKeyResourceModel :=
  { data with
    createdAt := key.createdAt
    expiration := key.expiration
    key := key.key
    id := key.id
    expired := decide (now > key.expiration)
    reusable := key.reusable
    ephemeral := key.ephemeral }

/-- The scan loop of PreAuthKeyResource.Read: walks the whole list and
keeps the last entry whose Id matches (the loop has no break). -/
def goFindPreAuthKey (keys : List PreAuthKey) (id : Nat) : Option PreAuthKey :=
  keys.foldl (fun acc found => if found.id ≠ id then acc else some found) none

/-- PreAuthKeyResource.Read.  listResult is the outcome of the
ListPreAuthKeys RPC for the owning user.  The state is written and then
removed again when the key is past expiration. -/
def PreAuthKeyResource.Read (now : Int)
    (listResult : Except String (List PreAuthKey))
    (data : PreAuthKeyResourceModel) : ReadResult PreAuthKeyResourceModel :=
  match listResult with
  | .error e =>
    { diags := ["Client Error: Unable to list pre auth keys, got error: " ++ e]
      finalState := some data }
  | .ok keys =>
    match goFindPreAuthKey keys data.id with
    | none =>
      { diags := ["Pre auth key not found"], finalState := none }
    | some preAuthKey =>
      let d1 := PreAuthKeyResource.readComputedFields now preAuthKey data
      let d2 := { d1 with
                  reusable := preAuthKey.reusable
                  ephemeral := preAuthKey.ephemeral
                  aclTags := preAuthKey.aclTags }
      if now > preAuthKey.expiration then
        { diags := [], finalState := none }
      else
        { diags := [], finalState := some d2 }

/-- One step of PreAuthKeyResource.Create around the TTL rule: either a
local parse failure (before any RPC) or the expiration instant sent in
the CreatePreAuthKey request. -/
inductive CreateKeyStep where
  | localError (msg : String)
  | rpcCreate (expiration : Int)
deriving Repr, DecidableEq

/-- Nanoseconds in one hour (the 1 * time.Hour default). -/
def hourNs : Int := 3600000000000

/-- The TTL-to-expiration logic of PreAuthKeyResource.Create: a null
ttl defaults the expiration to now + 1 hour; otherwise the ttl string
is parsed with time.ParseDuration, a parse error aborting the create
before the RPC. -/
def preAuthKeyCreateExpiration (now : Int) (ttl : Option (List Char)) :
    CreateKeyStep :=
  match ttl with
  | none => .rpcCreate (now + hourNs)
  | some s =>
    match parseDuration s with
    | .error e =>
      .localError ("Parse TTL Error: Unable to parse ttl, got error: " ++ e)
    | .ok d => .rpcCreate (now + d)

/-- The CreatePreAuthKey RPC request body. -/
structure CreatePreAuthKeyRequest where
  user : Nat
  reusable : Bool
  ephemeral : Bool
  expiration : Int
  aclTags : List String
deriving Repr, DecidableEq

/-- Outcome of PreAuthKeyResource.Create: diagnostics, the request that
was sent (none when no RPC was issued), and the state written. -/
structure PreAuthKeyCreateResult where
  diags : List String
  rpcRequest : Option CreatePreAuthKeyRequest
  finalState : Option PreAuthKeyResourceModel
deriving Repr, DecidableEq

/-- PreAuthKeyResource.Create; rpc is the CreatePreAuthKey call of the
client. -/
def PreAuthKeyResource.Create (now : Int) (data : PreAuthKeyResourceModel)
    (rpc : CreatePreAuthKeyRequest → Except String PreAuthKey) :
    PreAuthKeyCreateResult :=
  match preAuthKeyCreateExpiration now data.ttl with
  | .localError msg =>
    { diags := [msg], rpcRequest := none, finalState := none }
  | .rpcCreate expiration =>
    let req : CreatePreAuthKeyRequest :=
      { user := data.userId
        reusable := data.reusable
        ephemeral := data.ephemeral
        expiration := expiration
        aclTags := data.aclTags }
    match rpc req with
    | .error e =>
      { diags := ["Client Error: Unable to create pre auth key, got error: " ++ e]
        rpcRequest := some req
        finalState := none }
    | .ok key =>
      { diags := []
        rpcRequest := some req
        finalState := some (PreAuthKeyResource.readComputedFields now key data) }

/-- Effect of an Update handler: diagnostics, whether any RPC was
issued, and whether anything was written to state. -/
structure UpdateEffect where
  diags : List String
  rpcIssued : Bool
  stateWritten : Bool
deriving Repr, DecidableEq

/-- PreAuthKeyResource.Update: unconditionally adds the fatal error and
does nothing else. -/
def PreAuthKeyResource.Update (state plan : PreAuthKeyResourceModel) :
    UpdateEffect :=
  { diags := ["Error updating pre auth key: Pre auth keys cannot be updated"]
    rpcIssued := false
    stateWritten := false }

/- ---------------------------------------------------------------
   ApiKeyResource
   --------------------------------------------------------------- -/

/-- ApiKeyResource.readComputedFields: first list entry whose Prefix
equals the stored id (the loop breaks on a match); none when absent. -/
def ApiKeyResource.readComputedFields (now : Int) (p : List Char)
    (apiKeys : List ApiKey) (data : ApiKeyResourceModel) :
    Option ApiKeyResourceModel :=
  match apiKeys.find? (fun k => k.pfx == p) with
  | none => none
  | some apiKey =>
    some { data with
           expiration := apiKey.expiration
           createdAt := apiKey.createdAt
           expired := decide (now > apiKey.expiration) }

/-- ApiKeyResource.Read: not-found removes the state silently; a found
key is written back and then removed when its expired flag is set. -/
def ApiKeyResource.Read (now : Int)
    (listResult : Except String (List ApiKey))
    (data : ApiKeyResourceModel) : ReadResult ApiKeyResourceModel :=
  match listResult with
  | .error e =>
    { diags := ["Client Error: Unable to list api keys, got error: " ++ e]
      finalState := some data }
  | .ok apiKeys =>
    match ApiKeyResource.readComputedFields now data.id apiKeys data with
    | none => { diags := [], finalState := none }
    | some d =>
      if d.expired then { diags := [], finalState := none }
      else { diags := [], finalState := some d }

/-- ApiKeyResource.Update: unconditionally adds the fatal error and
does nothing else. -/
def ApiKeyResource.Update (state plan : ApiKeyResourceModel) : UpdateEffect :=
  { diags := ["Error updating api key: api keys cannot be updated"]
    rpcIssued := false
    stateWritten := false }

/-- Go strings.Split on a one-character separator, over List Char; the
result is never empty. -/
def goSplitOnChar (sep : Char) : List Char → List (List Char)
  | [] => [[]]
  | c :: rest =>
    if c = sep then [] :: goSplitOnChar sep rest
    else
      match goSplitOnChar sep rest with
      | [] => [[c]]
      | h :: t => (c :: h) :: t

/-- The characters of a string preceding the first occurrence of the
separator (the whole string when the separator is absent); this is the
formalisation of the spec's wording for the api-key id. -/
def beforeFirstSep (sep : Char) : List Char → List Char
  | [] => []
  | c :: rest => if c = sep then [] else c :: beforeFirstSep sep rest

/-- Outcome of ApiKeyResource.Create. -/
structure ApiKeyCreateResult where
  diags : List String
  createRpcIssued : Bool
  finalState : Option ApiKeyResourceModel
deriving Repr, DecidableEq

/-- ApiKeyResource.Create: parse the ttl, issue CreateApiKey (whose ok
payload is the full secret string), derive the id as the first segment
of the secret split on a dot, then list keys to fill the computed
fields; failing to find the fresh key is an error that removes state. -/
def ApiKeyResource.Create (now : Int) (data : ApiKeyResourceModel)
    (createRpc : Except String (List Char))
    (listRpc : Except String (List ApiKey)) : ApiKeyCreateResult :=
  match parseDuration data.ttl with
  | .error e =>
    { diags := ["Parse TTL Error: Unable to parse ttl, got error: " ++ e]
      createRpcIssued := false
      finalState := none }
  | .ok _d =>
    match createRpc with
    | .error e =>
      { diags := ["Client Error: Unable to create api key, got error: " ++ e]
        createRpcIssued := true
        finalState := none }
    | .ok secret =>
      let keyPfx := (goSplitOnChar '.' secret).headD []
      let data1 := { data with key := secret, id := keyPfx }
      match listRpc with
      | .error e =>
        { diags := ["Client Error: Unable to list api keys after creation, got error: " ++ e]
          createRpcIssued := true
          finalState := none }
      | .ok apiKeys =>
        match ApiKeyResource.readComputedFields now data1.id apiKeys data1 with
        | none =>
          { diags := ["Client Error: Unable to found api key after creation"]
            createRpcIssued := true
            finalState := none }
        | some d =>
          { diags := [], createRpcIssued := true, finalState := some d }

/- ---------------------------------------------------------------
   UserResource
   --------------------------------------------------------------- -/

/-- UserResource.readComputedFields: an empty remote email or display
name becomes a null model value. -/
def UserResource.readComputedFields (user : User) (data : UserResourceModel) :
    UserResourceModel :=
  { data with
    createdAt := user.createdAt
    id := user.id
    name := user.name
    email := if user.email = "" then none else some user.email
    displayName := if user.displayName = "" then none else some user.displayName }

/-- UserResource.Read: the list-by-id response (none is a nil user
slice).  Anything other than exactly one user is reported as user not
found and the state is removed; element 0 is read only behind the
length-one check. -/
def UserResource.Read (listResult : Except String (Option (List User)))
    (data : UserResourceModel) : ReadResult UserResourceModel :=
  match listResult with
  | .error e =>
    { diags := ["Client Error: Unable to list users, got error: " ++ e]
      finalState := some data }
  | .ok users =>
    match users with
    | none => { diags := ["user not found"], finalState := none }
    | some l =>
      if h : l.length = 1 then
        { diags := []
          finalState := some (UserResource.readComputedFields
            (l.get ⟨0, by omega⟩) data) }
      else
        { diags := ["user not found"], finalState := none }

/- ---------------------------------------------------------------
   NodeTagsResource and NodeRoutesResource
   --------------------------------------------------------------- -/

/-- Go node.GetForcedTags() through a possibly nil node pointer. -/
def goGetForcedTags : Option Node → Option (List String)
  | none => none
  | some n => n.forcedTags

/-- Go node.GetApprovedRoutes() through a possibly nil node pointer. -/
def goGetApprovedRoutes : Option Node → Option (List String)
  | none => none
  | some n => n.approvedRoutes

/-- NodeTagsResource.readComputedFields: a nil forced-tag list is
replaced by an empty one before it is stored, so the stored set value
is never null. -/
def NodeTagsResource.readComputedFields (node : Option Node)
    (data : NodeTagsResourceModel) : NodeTagsResourceModel :=
  let forcedTags := (goGetForcedTags node).getD []
  { data with tags := some forcedTags }

/-- NodeRoutesResource.readComputedFields: same shape for approved
routes. -/
def NodeRoutesResource.readComputedFields (node : Option Node)
    (data : NodeRoutesResourceModel) : NodeRoutesResourceModel :=
  let approvedRoutes := (goGetApprovedRoutes node).getD []
  { data with routes := some approvedRoutes }

/-- NodeTagsResource.Read: the GetNode response (none is a nil node
message).  A nil node adds the error and removes the state. -/
def NodeTagsResource.Read (getNodeResult : Except String (Option Node))
    (data : NodeTagsResourceModel) : ReadResult NodeTagsResourceModel :=
  match getNodeResult with
  | .error e =>
    { diags := ["Client Error: Unable to list nodes tags, got error: " ++ e]
      finalState := some data }
  | .ok none =>
    { diags := ["node not found"], finalState := none }
  | .ok (some node) =>
    { diags := []
      finalState := some (NodeTagsResource.readComputedFields (some node) data) }

/-- The remote SetTags action.  This models the external headscale
service per the spec's contract for the set verbs (section 4.4):
wholesale replacement of the node's forced tags, the response carrying
the updated node.  The remote state is a map from node id to node. -/
def remoteSetTags (st : Nat → Option Node) (nodeId : Nat)
    (tags : List String) : (Nat → Option Node) × Option Node :=
  let updated := (st nodeId).map (fun n => { n with forcedTags := some tags })
  (fun i => if i = nodeId then updated else st i, updated)

/-- The remote SetApprovedRoutes action, same replacement contract. -/
def remoteSetApprovedRoutes (st : Nat → Option Node) (nodeId : Nat)
    (routes : List String) : (Nat → Option Node) × Option Node :=
  let updated := (st nodeId).map (fun n => { n with approvedRoutes := some routes })
  (fun i => if i = nodeId then updated else st i, updated)

/-- What a set-style Update produced: the value set sent in the RPC
request and the observed set written back to state. -/
structure SetOpResult where
  sentValues : List String
  observed : Option (List String)
deriving Repr, DecidableEq

/-- NodeTagsResource.Update: sends the complete planned tag set in one
SetTags request and stores the tags of the node in the response. -/
def NodeTagsResource.Update (st : Nat → Option Node)
    (data : NodeTagsResourceModel) (planTags : List String) :
    (Nat → Option Node) × SetOpResult :=
  let r := remoteSetTags st data.nodeId planTags
  let data2 := NodeTagsResource.readComputedFields r.2 data
  (r.1, { sentValues := planTags, observed := data2.tags })

/-- NodeRoutesResource.Update: sends the complete planned route set in
one SetApprovedRoutes request and stores the routes of the node in the
response. -/
def NodeRoutesResource.Update (st : Nat → Option Node)
    (data : NodeRoutesResourceModel) (planRoutes : List String) :
    (Nat → Option Node) × SetOpResult :=
  let r := remoteSetApprovedRoutes st data.nodeId planRoutes
  let data2 := NodeRoutesResource.readComputedFields r.2 data
  (r.1, { sentValues := planRoutes, observed := data2.routes })

/- ---------------------------------------------------------------
   NodesDataSource
   --------------------------------------------------------------- -/

/-- Outcome of the nodes data source read: diagnostics and the state
written (none when nothing was written). -/
structure DataSourceReadResult where
  diags : List String
  written : Option (List NodeModel)
deriving Repr, DecidableEq

/-- NodesDataSource.Read: a transport error or a nil node list is an
error and writes nothing; a non-nil list (empty included) is mapped
into the model and written. -/
def NodesDataSource.Read (listResult : Except String (Option (List Node))) :
    DataSourceReadResult :=
  match listResult with
  | .error e =>
    { diags := ["Client Error: Unable to list nodes, got error: " ++ e]
      written := none }
  | .ok none =>
    { diags := ["Client Error: Headscale return null instead of list of nodes"]
      written := none }
  | .ok (some nodes) =>
    { diags := []
      written := some (nodes.map (fun n =>
        { id := n.id, name := n.name, userId := n.userId })) }

/- ---------------------------------------------------------------
   TLS material resolution in HeadscaleProvider.Configure
   --------------------------------------------------------------- -/

/-- The tls block of the provider configuration (each field null when
not set inline). -/
structure TLSBlock where
  insecure : Option Bool
  caPem : Option (List Char)
  clientCertPem : Option (List Char)
  clientKeyPem : Option (List Char)
deriving Repr, DecidableEq

/-- Go ValueString on a nullable terraform string: the null value reads
as the empty string. -/
def goValueString (v : Option (List Char)) : List Char := v.getD []

/-- The client certificate resolution of HeadscaleProvider.Configure:
inline tls.client_cert_pem when the block is present and the field is
not null, else the file named by HEADSCALE_TLS_CLIENT_CERT_PATH when
that variable is non-empty, else empty.  readFile is the os.ReadFile
collaborator; its failure aborts configuration. -/
def resolveClientCertPem (tls : Option TLSBlock) (certPathEnv : List Char)
    (readFile : List Char → Except String (List Char)) :
    Except String (List Char) :=
  match tls with
  | some t =>
    if t.clientCertPem.isSome then .ok (goValueString t.clientCertPem)
    else if certPathEnv ≠ [] then
      match readFile certPathEnv with
      | .error e => .error ("Fail to read HEADSCALE_TLS_CLIENT_CERT_PATH: " ++ e)
      | .ok content => .ok content
    else .ok []
  | none =>
    if certPathEnv ≠ [] then
      match readFile certPathEnv with
      | .error e => .error ("Fail to read HEADSCALE_TLS_CLIENT_CERT_PATH: " ++ e)
      | .ok content => .ok content
    else .ok []

/-- The client key resolution of HeadscaleProvider.Configure, exactly
as the source has it: the inline branch is guarded by the nullability
of tls.client_cert_pem (not of tls.client_key_pem), and inside it the
possibly-null tls.client_key_pem is read with ValueString. -/
def resolveClientKeyPem (tls : Option TLSBlock) (keyPathEnv : List Char)
    (readFile : List Char → Except String (List Char)) :
    Except String (List Char) :=
  match tls with
  | some t =>
    if t.clientCertPem.isSome then .ok (goValueString t.clientKeyPem)
    else if keyPathEnv ≠ [] then
      match readFile keyPathEnv with
      | .error e => .error ("Fail to read HEADSCALE_TLS_CLIENT_KEY_PATH: " ++ e)
      | .ok content => .ok content
    else .ok []
  | none =>
    if keyPathEnv ≠ [] then
      match readFile keyPathEnv with
      | .error e => .error ("Fail to read HEADSCALE_TLS_CLIENT_KEY_PATH: " ++ e)
      | .ok content => .ok content
    else .ok []

/-- Modelled from the spec: the client key resolution as the schema
documentation and the spec describe it — the inline tls.client_key_pem
value itself first, else the file named by
HEADSCALE_TLS_CLIENT_KEY_PATH.  Declared only to be compared with
resolveClientKeyPem, which is translated from the source. -/
def specResolveClientKeyPem (tls : Option TLSBlock) (keyPathEnv : List Char)
    (readFile : List Char → Except String (List Char)) :
    Except String (List Char) :=
  match tls with
  | some t =>
    match t.clientKeyPem with
    | some v => .ok v
    | none =>
      if keyPathEnv ≠ [] then
        match readFile keyPathEnv with
        | .error e => .error ("Fail to read HEADSCALE_TLS_CLIENT_KEY_PATH: " ++ e)
        | .ok content => .ok content
      else .ok []
  | none =>
    if keyPathEnv ≠ [] then
      match readFile keyPathEnv with
      | .error e => .error ("Fail to read HEADSCALE_TLS_CLIENT_KEY_PATH: " ++ e)
      | .ok content => .ok content
    else .ok []


/- ---------------------------------------------------------------
   Concrete sample values for witnesses and counterexamples.
   --------------------------------------------------------------- -/

/-- A remote pre-auth key expiring at tick 5. -/
def pakSample : PreAuthKey :=
  { id := 1, key := "secret", reusable := false, ephemeral := false
    aclTags := [], expiration := 5, createdAt := 0 }

/-- A stored pre-auth-key model pointing at key id 1 of user 2. -/
def pakModelSample : PreAuthKeyResourceModel :=
  { id := 1, userId := 2, reusable := false, ephemeral := false
    ttl := none, aclTags := [], expired := false
    createdAt := 0, expiration := 0, key := "" }

/-- A remote api key with prefix "a" expiring at tick 5. -/
def akSample : ApiKey := { pfx := ['a'], expiration := 5, createdAt := 0 }

/-- A stored api-key model whose id is the prefix "a". -/
def akModelSample : ApiKeyResourceModel :=
  { id := ['a'], ttl := ['1', 'h'], expired := false
    createdAt := 0, expiration := 0, key := [] }

/-- A remote user. -/
def userSampleA : User :=
  { id := 1, name := "alice", email := "", displayName := "", createdAt := 0 }

/-- A second remote user with the same id, as a duplicated-row response. -/
def userSampleB : User :=
  { id := 1, name := "bob", email := "", displayName := "", createdAt := 0 }

/-- A stored user model. -/
def userModelSample : UserResourceModel :=
  { id := 1, name := "alice", email := none, displayName := none, createdAt := 0 }

/-- A stored node-tags model for node 7. -/
def nodeTagsModelSample : NodeTagsResourceModel :=
  { id := 7, nodeId := 7, tags := none }

/-- A stored node-routes model for node 7. -/
def nodeRoutesModelSample : NodeRoutesResourceModel :=
  { id := 7, nodeId := 7, routes := none }

/-- A tls block with only the client certificate set inline. -/
def tlsBlockCertOnlySample : TLSBlock :=
  { insecure := none, caPem := none
    clientCertPem := some ['C', 'E', 'R', 'T'], clientKeyPem := none }

/-- The value of HEADSCALE_TLS_CLIENT_KEY_PATH in the witness scenario. -/
def keyPathSample : List Char := ['/', 'k']

/-- The content of the client key file in the witness scenario. -/
def keyFileContentSample : List Char := ['K', 'E', 'Y']

/-- A file system exposing exactly the client key file. -/
def readFileSample (p : List Char) : Except String (List Char) :=
  if p = keyPathSample then .ok keyFileContentSample
  else .error "open: no such file or directory"

/-- A create RPC stub that always succeeds with pakSample. -/
def createPakRpcSample (req : CreatePreAuthKeyRequest) :
    Except String PreAuthKey := .ok pakSample

/-- The ttl string "2562048h": it matches the schema regex but
overflows int64 nanoseconds, so Go ParseDuration rejects it. -/
def overflowTtlSample : List Char := ['2', '5', '6', '2', '0', '4', '8', 'h']

/-- The list entry for the freshly created api key with prefix "ab". -/
def akListedSample : ApiKey :=
  { pfx := ['a', 'b'], expiration := 9, createdAt := 0 }

/-- The state an ApiKey Create writes for the secret "ab.cd" against
akModelSample and the akListedSample list response at now = 0. -/
def akCreatedSample : ApiKeyResourceModel :=
  { id := ['a', 'b'], ttl := ['1', 'h'], expired := false
    createdAt := 0, expiration := 9, key := ['a', 'b', '.', 'c', 'd'] }

/- ---------------------------------------------------------------
   Helper lemmas.
   --------------------------------------------------------------- -/

/-- Go strings.Split never yields an empty slice. -/
theorem goSplitOnChar_ne_nil (sep : Char) (l : List Char) :
    goSplitOnChar sep l ≠ [] := by
  cases l with
  | nil => simp [goSplitOnChar]
  | cons c rest =>
    unfold goSplitOnChar
    by_cases h : c = sep
    · simp [h]
    · simp only [if_neg h]
      cases goSplitOnChar sep rest <;> simp

/-- The first segment of a split on sep is the part of the string
before the first occurrence of sep. -/
theorem goSplitOnChar_headD (sep : Char) (l : List Char) :
    (goSplitOnChar sep l).headD [] = beforeFirstSep sep l := by
  induction l with
  | nil => rfl
  | cons c rest ih =>
    unfold goSplitOnChar beforeFirstSep
    by_cases h : c = sep
    · simp [h]
    · simp only [if_neg h]
      rcases hs : goSplitOnChar sep rest with _ | ⟨a, t⟩
      · exact absurd hs (goSplitOnChar_ne_nil sep rest)
      · rw [hs] at ih
        simp only [List.headD_cons] at ih ⊢
        rw [ih]

/-- The part before the first sep is a proper prefix whenever sep
occurs in the string. -/
theorem beforeFirstSep_ne_of_mem (sep : Char) (l : List Char) :
    sep ∈ l → beforeFirstSep sep l ≠ l := by
  induction l with
  | nil => intro h; cases h
  | cons c rest ih =>
    intro h
    unfold beforeFirstSep
    by_cases hc : c = sep
    · simp [hc]
    · simp only [if_neg hc]
      intro he
      rw [List.cons.injEq] at he
      have hm : sep ∈ rest := by
        rcases List.mem_cons.mp h with h1 | h1
        · exact absurd h1.symm hc
        · exact h1
      exact ih hm he.2

/-- ApiKeyResource.readComputedFields never touches the id or the key
field of the model. -/
theorem apiKeyReadComputedPreserves (now : Int) (p : List Char)
    (apiKeys : List ApiKey) (data d : ApiKeyResourceModel)
    (h : ApiKeyResource.readComputedFields now p apiKeys data = some d) :
    d.id = data.id ∧ d.key = data.key := by
  unfold ApiKeyResource.readComputedFields at h
  rcases hfind : apiKeys.find? (fun k => k.pfx == p) with _ | k
  · rw [hfind] at h; cases h
  · rw [hfind] at h
    cases h
    exact ⟨rfl, rfl⟩

/- ---------------------------------------------------------------
   Claim theorems.
   --------------------------------------------------------------- -/

/-- Claim C1: for every PreAuthKey or ApiKey Read in which the key is
found in the list response and the read-time clock is strictly past
its expiration instant, the final state is none — the record is
removed, not kept with a passive expired flag — for every such value
of now. -/
theorem preAuthKeyApiKeyExpiryRemoval :
    (∀ (now : Int) (keys : List PreAuthKey) (data : PreAuthKeyResourceModel)
        (k : PreAuthKey),
        goFindPreAuthKey keys data.id = some k → now > k.expiration →
        (PreAuthKeyResource.Read now (.ok keys) data).finalState = none) ∧
    (∀ (now : Int) (apiKeys : List ApiKey) (data : ApiKeyResourceModel)
        (k : ApiKey),
        apiKeys.find? (fun x => x.pfx == data.id) = some k →
        now > k.expiration →
        (ApiKeyResource.Read now (.ok apiKeys) data).finalState = none) := by
  constructor
  · intro now keys data k hfind hexp
    simp [PreAuthKeyResource.Read, hfind, hexp]
  · intro now apiKeys data k hfind hexp
    simp [ApiKeyResource.Read, ApiKeyResource.readComputedFields, hfind, hexp]

/-- Witness for C1 at now = 10 against keys expiring at tick 5. -/
theorem preAuthKeyApiKeyExpiryRemovalWitness :
    (PreAuthKeyResource.Read 10 (.ok [pakSample]) pakModelSample).finalState
      = none ∧
    (ApiKeyResource.Read 10 (.ok [akSample]) akModelSample).finalState
      = none :=
  ⟨preAuthKeyApiKeyExpiryRemoval.1 10 [pakSample] pakModelSample pakSample
      rfl (by decide),
   preAuthKeyApiKeyExpiryRemoval.2 10 [akSample] akModelSample akSample
      rfl (by decide)⟩

/-- Claim C2: PreAuthKey Create computes the expiration sent in the
CreatePreAuthKey request as now + 1 hour when the ttl is null, and as
now + the parsed duration when the ttl parses; a malformed ttl aborts
locally with the parse-error diagnostic and no request is issued. -/
theorem preAuthKeyTtlRule :
    (∀ (now : Int) (data : PreAuthKeyResourceModel)
        (rpc : CreatePreAuthKeyRequest → Except String PreAuthKey),
        data.ttl = none →
        (PreAuthKeyResource.Create now data rpc).rpcRequest =
          some ⟨data.userId, data.reusable, data.ephemeral, now + hourNs,
            data.aclTags⟩) ∧
    (∀ (now : Int) (data : PreAuthKeyResourceModel)
        (rpc : CreatePreAuthKeyRequest → Except String PreAuthKey)
        (s : List Char) (d : Int),
        data.ttl = some s → parseDuration s = .ok d →
        (PreAuthKeyResource.Create now data rpc).rpcRequest =
          some ⟨data.userId, data.reusable, data.ephemeral, now + d,
            data.aclTags⟩) ∧
    (∀ (now : Int) (data : PreAuthKeyResourceModel)
        (rpc : CreatePreAuthKeyRequest → Except String PreAuthKey)
        (s : List Char) (e : String),
        data.ttl = some s → parseDuration s = .error e →
        (PreAuthKeyResource.Create now data rpc).rpcRequest = none ∧
        (PreAuthKeyResource.Create now data rpc).diags =
          ["Parse TTL Error: Unable to parse ttl, got error: " ++ e]) := by
  refine ⟨?_, ?_, ?_⟩
  · intro now data rpc h
    simp only [PreAuthKeyResource.Create, preAuthKeyCreateExpiration, h]
    cases rpc ⟨data.userId, data.reusable, data.ephemeral, now + hourNs,
        data.aclTags⟩ <;>
      rfl
  · intro now data rpc s d h hp
    simp only [PreAuthKeyResource.Create, preAuthKeyCreateExpiration, h, hp]
    cases rpc ⟨data.userId, data.reusable, data.ephemeral, now + d,
        data.aclTags⟩ <;>
      rfl
  · intro now data rpc s e h hp
    constructor <;>
      simp [PreAuthKeyResource.Create, preAuthKeyCreateExpiration, h, hp]

/-- Witness for C2: the default at now = 0, the ttl "2h", the
malformed ttl "1d", and the ttl "2562048h" that overflows int64
nanoseconds and so fails locally despite matching the schema
regex. -/
theorem preAuthKeyTtlRuleWitness :
    ((PreAuthKeyResource.Create 0 pakModelSample
        createPakRpcSample).rpcRequest =
      some ⟨2, false, false, 0 + hourNs, []⟩) ∧
    ((PreAuthKeyResource.Create 0
        { pakModelSample with ttl := some ['2', 'h'] }
        createPakRpcSample).rpcRequest =
      some ⟨2, false, false, 0 + 7200000000000, []⟩) ∧
    ((PreAuthKeyResource.Create 0
        { pakModelSample with ttl := some ['1', 'd'] }
        createPakRpcSample).rpcRequest = none ∧
      (PreAuthKeyResource.Create 0
        { pakModelSample with ttl := some ['1', 'd'] }
        createPakRpcSample).diags =
        ["Parse TTL Error: Unable to parse ttl, got error: " ++
          "time: unknown unit in duration"]) ∧
    ((PreAuthKeyResource.Create 0
        { pakModelSample with ttl := some overflowTtlSample }
        createPakRpcSample).rpcRequest = none ∧
      (PreAuthKeyResource.Create 0
        { pakModelSample with ttl := some overflowTtlSample }
        createPakRpcSample).diags =
        ["Parse TTL Error: Unable to parse ttl, got error: " ++
          "time: invalid duration"]) :=
  ⟨preAuthKeyTtlRule.1 0 pakModelSample createPakRpcSample rfl,
   preAuthKeyTtlRule.2.1 0 { pakModelSample with ttl := some ['2', 'h'] }
     createPakRpcSample ['2', 'h'] 7200000000000 rfl rfl,
   preAuthKeyTtlRule.2.2 0 { pakModelSample with ttl := some ['1', 'd'] }
     createPakRpcSample ['1', 'd'] "time: unknown unit in duration" rfl rfl,
   preAuthKeyTtlRule.2.2 0
     { pakModelSample with ttl := some overflowTtlSample }
     createPakRpcSample overflowTtlSample
     "time: invalid duration" rfl rfl⟩

/-- Claim C3: User Read reports not-found and removes the state for a
nil user list and for any list whose length is not one, and it reads
element 0 (the single user) only when the list has exactly one
element. -/
theorem userReadExactlyOneMatch :
    (∀ (data : UserResourceModel),
      (UserResource.Read (.ok none) data).finalState = none ∧
      (UserResource.Read (.ok none) data).diags = ["user not found"]) ∧
    (∀ (users : List User) (data : UserResourceModel), users.length ≠ 1 →
      (UserResource.Read (.ok (some users)) data).finalState = none ∧
      (UserResource.Read (.ok (some users)) data).diags = ["user not found"]) ∧
    (∀ (u : User) (data : UserResourceModel),
      (UserResource.Read (.ok (some [u])) data).finalState =
        some (UserResource.readComputedFields u data) ∧
      (UserResource.Read (.ok (some [u])) data).diags = []) := by
  refine ⟨fun data => ⟨rfl, rfl⟩, ?_, ?_⟩
  · intro users data h
    constructor <;> simp [UserResource.Read, h]
  · intro u data
    constructor <;> simp [UserResource.Read]

/-- Witness for C3 at a two-row response for the same id. -/
theorem userReadExactlyOneMatchWitness :
    (UserResource.Read (.ok (some [userSampleA, userSampleB]))
        userModelSample).finalState = none ∧
    (UserResource.Read (.ok (some [userSampleA, userSampleB]))
        userModelSample).diags = ["user not found"] :=
  userReadExactlyOneMatch.2.1 [userSampleA, userSampleB] userModelSample
    (by decide)

/-- Claim C4: Update on a PreAuthKey or ApiKey resource always yields
exactly the fatal keys-cannot-be-updated diagnostic, issues no RPC and
writes nothing to state, whatever the prior state and plan are. -/
theorem keysCannotBeUpdated :
    (∀ state plan : PreAuthKeyResourceModel,
      (PreAuthKeyResource.Update state plan).diags =
        ["Error updating pre auth key: Pre auth keys cannot be updated"] ∧
      (PreAuthKeyResource.Update state plan).rpcIssued = false ∧
      (PreAuthKeyResource.Update state plan).stateWritten = false) ∧
    (∀ state plan : ApiKeyResourceModel,
      (ApiKeyResource.Update state plan).diags =
        ["Error updating api key: api keys cannot be updated"] ∧
      (ApiKeyResource.Update state plan).rpcIssued = false ∧
      (ApiKeyResource.Update state plan).stateWritten = false) :=
  ⟨fun _ _ => ⟨rfl, rfl, rfl⟩, fun _ _ => ⟨rfl, rfl, rfl⟩⟩

/-- Counterexample closing claim C5 as stated: a PreAuthKey Read whose
key is absent from the list response removes the state but reports an
error diagnostic, so this not-found condition is reported as an
error. -/
theorem notFoundReadAddsErrorCounterexample :
    (PreAuthKeyResource.Read 0 (.ok []) pakModelSample).finalState = none ∧
    (PreAuthKeyResource.Read 0 (.ok []) pakModelSample).diags ≠ [] := by
  constructor
  · rfl
  · decide

/-- Claim C5 as amended: expiry drift in PreAuthKey and ApiKey reads,
and an ApiKey missing from the list, remove the state with no error
diagnostic; but an entity-absent condition in a PreAuthKey, User or
NodeTags read removes the state while also adding an error
diagnostic. -/
theorem driftRemovalDiagContract :
    (∀ (now : Int) (keys : List PreAuthKey) (data : PreAuthKeyResourceModel)
        (k : PreAuthKey),
        goFindPreAuthKey keys data.id = some k → now > k.expiration →
        (PreAuthKeyResource.Read now (.ok keys) data).diags = [] ∧
        (PreAuthKeyResource.Read now (.ok keys) data).finalState = none) ∧
    (∀ (now : Int) (apiKeys : List ApiKey) (data : ApiKeyResourceModel),
        apiKeys.find? (fun x => x.pfx == data.id) = none →
        (ApiKeyResource.Read now (.ok apiKeys) data).diags = [] ∧
        (ApiKeyResource.Read now (.ok apiKeys) data).finalState = none) ∧
    (∀ (now : Int) (apiKeys : List ApiKey) (data : ApiKeyResourceModel)
        (k : ApiKey),
        apiKeys.find? (fun x => x.pfx == data.id) = some k →
        now > k.expiration →
        (ApiKeyResource.Read now (.ok apiKeys) data).diags = [] ∧
        (ApiKeyResource.Read now (.ok apiKeys) data).finalState = none) ∧
    (∀ (now : Int) (keys : List PreAuthKey) (data : PreAuthKeyResourceModel),
        goFindPreAuthKey keys data.id = none →
        (PreAuthKeyResource.Read now (.ok keys) data).diags =
          ["Pre auth key not found"] ∧
        (PreAuthKeyResource.Read now (.ok keys) data).finalState = none) ∧
    (∀ (users : List User) (data : UserResourceModel), users.length ≠ 1 →
        (UserResource.Read (.ok (some users)) data).diags =
          ["user not found"] ∧
        (UserResource.Read (.ok (some users)) data).finalState = none) ∧
    (∀ (data : NodeTagsResourceModel),
        (NodeTagsResource.Read (.ok none) data).diags = ["node not found"] ∧
        (NodeTagsResource.Read (.ok none) data).finalState = none) := by
  refine ⟨?_, ?_, ?_, ?_, ?_, fun data => ⟨rfl, rfl⟩⟩
  · intro now keys data k hfind hexp
    constructor <;> simp [PreAuthKeyResource.Read, hfind, hexp]
  · intro now apiKeys data hfind
    constructor <;>
      simp [ApiKeyResource.Read, ApiKeyResource.readComputedFields, hfind]
  · intro now apiKeys data k hfind hexp
    constructor <;>
      simp [ApiKeyResource.Read, ApiKeyResource.readComputedFields, hfind, hexp]
  · intro now keys data hfind
    constructor <;> simp [PreAuthKeyResource.Read, hfind]
  · intro users data h
    constructor <;> simp [UserResource.Read, h]

/-- Witness for the amended C5 across all six cases, at concrete
inputs. -/
theorem driftRemovalDiagContractWitness :
    ((PreAuthKeyResource.Read 10 (.ok [pakSample]) pakModelSample).diags
      = [] ∧
     (PreAuthKeyResource.Read 10 (.ok [pakSample]) pakModelSample).finalState
      = none) ∧
    ((ApiKeyResource.Read 0 (.ok []) akModelSample).diags = [] ∧
     (ApiKeyResource.Read 0 (.ok []) akModelSample).finalState = none) ∧
    ((ApiKeyResource.Read 10 (.ok [akSample]) akModelSample).diags = [] ∧
     (ApiKeyResource.Read 10 (.ok [akSample]) akModelSample).finalState
      = none) ∧
    ((PreAuthKeyResource.Read 0 (.ok []) pakModelSample).diags =
      ["Pre auth key not found"] ∧
     (PreAuthKeyResource.Read 0 (.ok []) pakModelSample).finalState = none) ∧
    ((UserResource.Read (.ok (some [])) userModelSample).diags =
      ["user not found"] ∧
     (UserResource.Read (.ok (some [])) userModelSample).finalState = none) ∧
    ((NodeTagsResource.Read (.ok none) nodeTagsModelSample).diags =
      ["node not found"] ∧
     (NodeTagsResource.Read (.ok none) nodeTagsModelSample).finalState
      = none) :=
  ⟨driftRemovalDiagContract.1 10 [pakSample] pakModelSample pakSample
      rfl (by decide),
   driftRemovalDiagContract.2.1 0 [] akModelSample rfl,
   driftRemovalDiagContract.2.2.1 10 [akSample] akModelSample akSample
      rfl (by decide),
   driftRemovalDiagContract.2.2.2.1 0 [] pakModelSample rfl,
   driftRemovalDiagContract.2.2.2.2.1 [] userModelSample (by decide),
   driftRemovalDiagContract.2.2.2.2.2 nodeTagsModelSample⟩

/-- Claim C6: a successful ApiKey Create stores the full secret in the
key field and stores, as the id, exactly the part of the secret before
its first dot; when the secret contains a dot the id is therefore not
the full secret. -/
theorem apiKeyIdIsPfxBeforeDot (now : Int) (data : ApiKeyResourceModel)
    (secret : List Char) (apiKeys : List ApiKey) (d : ApiKeyResourceModel)
    (h : (ApiKeyResource.Create now data (.ok secret)
      (.ok apiKeys)).finalState = some d) :
    d.key = secret ∧ d.id = beforeFirstSep '.' secret ∧
      ('.' ∈ secret → d.id ≠ secret) := by
  unfold ApiKeyResource.Create at h
  rcases hp : parseDuration data.ttl with e | dur
  · rw [hp] at h; cases h
  · rw [hp] at h
    dsimp only at h
    split at h
    next hf => simp at h
    next d2 hf =>
      simp only [Option.some.injEq] at h
      subst h
      obtain ⟨hid, hkey⟩ := apiKeyReadComputedPreserves _ _ _ _ _ hf
      refine ⟨hkey, ?_, ?_⟩
      · exact hid.trans (goSplitOnChar_headD '.' secret)
      · intro hmem
        rw [hid.trans (goSplitOnChar_headD '.' secret)]
        exact beforeFirstSep_ne_of_mem '.' secret hmem

/-- Witness for C6 with the secret "ab.cd": the created state is
exactly akCreatedSample, whose id is "ab" and whose key is the full
secret. -/
theorem apiKeyIdIsPfxBeforeDotWitness :
    akCreatedSample.key = ['a', 'b', '.', 'c', 'd'] ∧
    akCreatedSample.id = beforeFirstSep '.' ['a', 'b', '.', 'c', 'd'] ∧
    ('.' ∈ ['a', 'b', '.', 'c', 'd'] →
      akCreatedSample.id ≠ ['a', 'b', '.', 'c', 'd']) :=
  apiKeyIdIsPfxBeforeDot 0 akModelSample ['a', 'b', '.', 'c', 'd']
    [akListedSample] akCreatedSample rfl

/-- Claim C7: the client key resolution of Configure, evaluated where
the inline client_key_pem is absent, the inline client_cert_pem is
present, and HEADSCALE_TLS_CLIENT_KEY_PATH names a readable file.  The
source resolves the key to the ValueString of the null inline field —
the empty string — and never reads the file, while the resolution that
the schema documentation and the spec describe reads the file.  The
inline branch is guarded by the nullability of client_cert_pem instead
of client_key_pem. -/
theorem clientKeyPathIgnoredBug :
    resolveClientKeyPem (some tlsBlockCertOnlySample) keyPathSample
      readFileSample = .ok [] ∧
    specResolveClientKeyPem (some tlsBlockCertOnlySample) keyPathSample
      readFileSample = .ok keyFileContentSample ∧
    resolveClientKeyPem (some tlsBlockCertOnlySample) keyPathSample
        readFileSample ≠
      specResolveClientKeyPem (some tlsBlockCertOnlySample) keyPathSample
        readFileSample := by
  refine ⟨rfl, rfl, ?_⟩
  intro h
  rw [show resolveClientKeyPem (some tlsBlockCertOnlySample) keyPathSample
        readFileSample = .ok [] from rfl,
      show specResolveClientKeyPem (some tlsBlockCertOnlySample) keyPathSample
        readFileSample = .ok keyFileContentSample from rfl] at h
  simp [keyFileContentSample] at h

/-- Claim C8: a set-style Update sends the complete desired value set
in its request, and running the same Update twice against the remote
state yields the same observed set both times, for node tags and for
node routes. -/
theorem setUpdateIdempotent :
    (∀ (st : Nat → Option Node) (data : NodeTagsResourceModel)
        (s : List String),
      (NodeTagsResource.Update st data s).2.sentValues = s ∧
      (NodeTagsResource.Update
        (NodeTagsResource.Update st data s).1 data s).2.sentValues = s ∧
      (NodeTagsResource.Update
          (NodeTagsResource.Update st data s).1 data s).2.observed =
        (NodeTagsResource.Update st data s).2.observed) ∧
    (∀ (st : Nat → Option Node) (data : NodeRoutesResourceModel)
        (s : List String),
      (NodeRoutesResource.Update st data s).2.sentValues = s ∧
      (NodeRoutesResource.Update
        (NodeRoutesResource.Update st data s).1 data s).2.sentValues = s ∧
      (NodeRoutesResource.Update
          (NodeRoutesResource.Update st data s).1 data s).2.observed =
        (NodeRoutesResource.Update st data s).2.observed) := by
  constructor
  · intro st data s
    refine ⟨rfl, rfl, ?_⟩
    cases h : st data.nodeId <;>
      simp [NodeTagsResource.Update, remoteSetTags,
        NodeTagsResource.readComputedFields, goGetForcedTags, h]
  · intro st data s
    refine ⟨rfl, rfl, ?_⟩
    cases h : st data.nodeId <;>
      simp [NodeRoutesResource.Update, remoteSetApprovedRoutes,
        NodeRoutesResource.readComputedFields, goGetApprovedRoutes, h]

/-- Claim C9: the nodes data source treats a nil node list as an error
and writes no state, while an empty non-nil list succeeds with an
empty sequence; the two outcomes are distinct. -/
theorem nodesNilVsEmptyDistinct :
    ((NodesDataSource.Read (.ok none)).diags =
      ["Client Error: Headscale return null instead of list of nodes"] ∧
     (NodesDataSource.Read (.ok none)).written = none) ∧
    ((NodesDataSource.Read (.ok (some []))).diags = [] ∧
     (NodesDataSource.Read (.ok (some []))).written = some []) ∧
    NodesDataSource.Read (.ok none) ≠ NodesDataSource.Read (.ok (some [])) := by
  refine ⟨⟨rfl, rfl⟩, ⟨rfl, rfl⟩, ?_⟩
  intro h
  have hw := congrArg DataSourceReadResult.written h
  simp [NodesDataSource.Read] at hw

/-- Claim C10: mapping a remote node response into the observed record
never stores a null tag or route set: the stored value is always some
list, and a nil remote list (a nil node included) is normalized to the
empty one. -/
theorem observedSetsNeverNull :
    (∀ (node : Option Node) (data : NodeTagsResourceModel),
      (NodeTagsResource.readComputedFields node data).tags ≠ none ∧
      (goGetForcedTags node = none →
        (NodeTagsResource.readComputedFields node data).tags = some [])) ∧
    (∀ (node : Option Node) (data : NodeRoutesResourceModel),
      (NodeRoutesResource.readComputedFields node data).routes ≠ none ∧
      (goGetApprovedRoutes node = none →
        (NodeRoutesResource.readComputedFields node data).routes
          = some [])) := by
  constructor
  · intro node data
    constructor
    · simp [NodeTagsResource.readComputedFields]
    · intro h
      simp [NodeTagsResource.readComputedFields, h]
  · intro node data
    constructor
    · simp [NodeRoutesResource.readComputedFields]
    · intro h
      simp [NodeRoutesResource.readComputedFields, h]

/-- Witness for C10 at a nil node. -/
theorem observedSetsNeverNullWitness :
    (NodeTagsResource.readComputedFields none nodeTagsModelSample).tags
      = some [] ∧
    (NodeRoutesResource.readComputedFields none nodeRoutesModelSample).routes
      = some [] :=
  ⟨(observedSetsNeverNull.1 none nodeTagsModelSample).2 rfl,
   (observedSetsNeverNull.2 none nodeRoutesModelSample).2 rfl⟩
